import Mathlib

/-!
Verification of the simple-commerce order API (main.go): a shallow embedding
of the order-aggregation layer, the order-ingestion handler, the access
control middleware, the rate limiter construction, and the reminder sweep,
together with theorems settling the specification claims.

The relational store is modelled as lists of rows for the three tables the
queries read.  SQL joins become nested list traversals; the Go map-based
grouping fold becomes a fold over an insertion-ordered list of records
(a deterministic refinement of the unspecified Go map iteration order: the
per-record content is identical).  Go float64 prices are modelled as
rationals; no arithmetic is ever performed on them, they are only copied.
Timestamps are modelled as integers.
-/

set_option autoImplicit false

namespace SimpleCommerce

/-- A row of the orders table (initDB: id, customer_id, date, status). -/
structure OrderRow where
  id : Int
  customerId : Int
  date : Int
  status : String
  deriving DecidableEq, Repr

/-- A row of the order_products association table.  NOTE: the schema in
initDB creates only (order_id, product_id); the quantity field modelled here
is what the read queries and the spec assume the table to carry — the
mismatch between the schema and the queries is the subject of claim C7. -/
structure OrderProductRow where
  orderId : Int
  productId : Int
  quantity : Int
  deriving DecidableEq, Repr

/-- A row of the products table (initDB: id, name, price, description,
image_url). -/
structure ProductRow where
  id : Int
  name : String
  price : Rat
  description : String
  imageURL : String
  deriving DecidableEq, Repr

/-- The relational store: the three tables read by the aggregation layer. -/
structure Store where
  orders : List OrderRow
  orderProducts : List OrderProductRow
  products : List ProductRow
  deriving DecidableEq, Repr

/-- The Product DTO of main.go.  The Go struct has fields ID, Name, Price,
Description, ImageURL; getOrderDetails additionally scans op.quantity into a
Quantity field that the Go struct does not declare (claim C7); it is modelled
here, defaulted to 0 where the query does not select it. -/
structure Product where
  id : Int
  name : String
  price : Rat
  description : String
  imageURL : String
  quantity : Int
  deriving DecidableEq, Repr

/-- The OrderWithProducts DTO of main.go. -/
structure OrderWithProducts where
  id : Int
  customerId : Int
  date : Int
  status : String
  products : List Product
  deriving DecidableEq, Repr

/-- One flat row of the join executed by getCustomerOrdersWithProducts and
getAllOrdersWithProducts: order header columns plus product columns.  The
customer-scoped query does not select o.customer_id; the row carries it
anyway and the customer-side record constructor ignores it, mirroring the Go
struct literal that leaves CustomerID at its zero value. -/
structure JoinRow where
  orderId : Int
  customerId : Int
  date : Int
  status : String
  productId : Int
  productName : String
  price : Rat
  description : String
  imageURL : String
  deriving DecidableEq, Repr

/-- The product entry built from a join row in the two grouping reads: the Go
struct literal sets ID, Name, Price, Description, ImageURL and leaves the
quantity at its zero value (the query selects no quantity). -/
def rowProduct (r : JoinRow) : Product :=
  { id := r.productId, name := r.productName, price := r.price,
    description := r.description, imageURL := r.imageURL, quantity := 0 }

/-- The record getCustomerOrdersWithProducts creates on first sight of an
order id: the struct literal omits CustomerID, so it stays at the Go zero
value 0 (claim C10). -/
def mkCustomerOrder (r : JoinRow) : OrderWithProducts :=
  { id := r.orderId, customerId := 0, date := r.date, status := r.status,
    products := [rowProduct r] }

/-- The record getAllOrdersWithProducts creates on first sight of an order
id: the admin query selects o.customer_id and the literal sets it. -/
def mkAdminOrder (r : JoinRow) : OrderWithProducts :=
  { id := r.orderId, customerId := r.customerId, date := r.date,
    status := r.status, products := [rowProduct r] }

/-- One step of the grouping fold shared by both list aggregations: if a
record with the order id of the row already exists, append the product entry to
it; otherwise create a fresh record. -/
def groupStep (mk : JoinRow → OrderWithProducts)
    (acc : List OrderWithProducts) (r : JoinRow) : List OrderWithProducts :=
  if acc.any (fun o => o.id == r.orderId) then
    acc.map (fun o =>
      if o.id == r.orderId then
        { o with products := o.products ++ [rowProduct r] }
      else o)
  else
    acc ++ [mk r]

/-- The grouping fold over the flat join rows (the rows.Next loop plus the
map-to-slice conversion of main.go, with records kept in first-insertion
order). -/
def groupRows (mk : JoinRow → OrderWithProducts) (rows : List JoinRow) :
    List OrderWithProducts :=
  rows.foldl (groupStep mk) []

/-- The flat rows produced by the customer-scoped join
(orders x order_products x products WHERE o.customer_id = cid). -/
def customerJoinRows (s : Store) (cid : Int) : List JoinRow :=
  (s.orders.filter (fun o => o.customerId == cid)).flatMap (fun o =>
    (s.orderProducts.filter (fun op => op.orderId == o.id)).flatMap (fun op =>
      (s.products.filter (fun p => p.id == op.productId)).map (fun p =>
        { orderId := o.id, customerId := o.customerId, date := o.date,
          status := o.status, productId := p.id, productName := p.name,
          price := p.price, description := p.description,
          imageURL := p.imageURL })))

/-- The flat rows produced by the unscoped admin join. -/
def allJoinRows (s : Store) : List JoinRow :=
  s.orders.flatMap (fun o =>
    (s.orderProducts.filter (fun op => op.orderId == o.id)).flatMap (fun op =>
      (s.products.filter (fun p => p.id == op.productId)).map (fun p =>
        { orderId := o.id, customerId := o.customerId, date := o.date,
          status := o.status, productId := p.id, productName := p.name,
          price := p.price, description := p.description,
          imageURL := p.imageURL })))

/-- getCustomerOrdersWithProducts of main.go. -/
def getCustomerOrdersWithProducts (s : Store) (cid : Int) :
    List OrderWithProducts :=
  groupRows mkCustomerOrder (customerJoinRows s cid)

/-- getAllOrdersWithProducts of main.go. -/
def getAllOrdersWithProducts (s : Store) : List OrderWithProducts :=
  groupRows mkAdminOrder (allJoinRows s)

/-- One flat row of the single-order join executed by getOrderDetails:
order header columns plus p.id, p.name, p.price, op.quantity. -/
structure DetailRow where
  orderId : Int
  customerId : Int
  date : Int
  status : String
  productId : Int
  productName : String
  price : Rat
  quantity : Int
  deriving DecidableEq, Repr

/-- The flat rows of the getOrderDetails join
(WHERE o.id = orderID AND o.customer_id = customerID). -/
def detailRows (s : Store) (orderID customerID : Int) : List DetailRow :=
  (s.orders.filter (fun o => o.id == orderID && o.customerId == customerID)).flatMap
    (fun o =>
      (s.orderProducts.filter (fun op => op.orderId == o.id)).flatMap (fun op =>
        (s.products.filter (fun p => p.id == op.productId)).map (fun p =>
          { orderId := o.id, customerId := o.customerId, date := o.date,
            status := o.status, productId := p.id, productName := p.name,
            price := p.price, quantity := op.quantity })))

/-- The product entry getOrderDetails builds from a row: the scan fills ID,
Name, Price, Quantity; Description and ImageURL stay at their zero values. -/
def detailProduct (r : DetailRow) : Product :=
  { id := r.productId, name := r.productName, price := r.price,
    description := "", imageURL := "", quantity := r.quantity }

/-- One iteration of the getOrderDetails scan loop: the header fields are
overwritten from the row and the product entry is appended. -/
def detailStep (ord : OrderWithProducts) (r : DetailRow) : OrderWithProducts :=
  { id := r.orderId, customerId := r.customerId, date := r.date,
    status := r.status, products := ord.products ++ [detailProduct r] }

/-- getOrderDetails of main.go: the record starts from the function
arguments with an empty product list, then the scan loop runs over the join
rows.  (In the pure relational model the query cannot fail, so the error
return is absent.) -/
def getOrderDetails (s : Store) (orderID customerID : Int) :
    OrderWithProducts :=
  (detailRows s orderID customerID).foldl detailStep
    { id := orderID, customerId := customerID, date := 0, status := "",
      products := [] }

/-! ### Grouping-fold infrastructure -/

/-- The order ids a run of the grouping fold over rows adds to an
accumulator whose ids are seen: each id of a row, at its first sight, in
row order. -/
def newIds : List JoinRow → List Int → List Int
  | [], _ => []
  | r :: rs, seen =>
    if r.orderId ∈ seen then newIds rs seen
    else r.orderId :: newIds rs (seen ++ [r.orderId])

theorem any_id_eq_mem (acc : List OrderWithProducts) (x : Int) :
    acc.any (fun o => o.id == x) = true ↔ x ∈ acc.map (fun o => o.id) := by
  rw [List.any_eq_true, List.mem_map]
  constructor
  · rintro ⟨o, ho, hb⟩
    exact ⟨o, ho, eq_of_beq hb⟩
  · rintro ⟨o, ho, hb⟩
    exact ⟨o, ho, beq_iff_eq.mpr hb⟩

theorem groupStep_ids (mk : JoinRow → OrderWithProducts)
    (hid : ∀ r, (mk r).id = r.orderId)
    (acc : List OrderWithProducts) (r : JoinRow) :
    (groupStep mk acc r).map (fun o => o.id)
      = if r.orderId ∈ acc.map (fun o => o.id)
        then acc.map (fun o => o.id)
        else acc.map (fun o => o.id) ++ [r.orderId] := by
  by_cases h : r.orderId ∈ acc.map (fun o => o.id)
  · rw [if_pos h]
    rw [groupStep, if_pos ((any_id_eq_mem acc r.orderId).mpr h)]
    rw [List.map_map]
    apply List.map_congr_left
    intro o _
    simp only [Function.comp_apply]
    by_cases ho : (o.id == r.orderId) = true
    · rw [if_pos ho]
    · rw [if_neg ho]
  · rw [if_neg h]
    rw [groupStep, if_neg (fun hc => h ((any_id_eq_mem acc r.orderId).mp hc))]
    simp [hid r]

/-- Core characterization of the grouping fold: the ids of the result are
the accumulator ids followed by the first sight of each new row id, and
the product list of every record is its accumulator prefix (empty for records
the fold created) followed by exactly the product entries of the rows
bearing its id, in row order. -/
theorem foldl_groupStep_spec (mk : JoinRow → OrderWithProducts)
    (hid : ∀ r, (mk r).id = r.orderId)
    (hpr : ∀ r, (mk r).products = [rowProduct r]) :
    ∀ (rows : List JoinRow) (acc : List OrderWithProducts),
      ((rows.foldl (groupStep mk) acc).map (fun o => o.id)
          = acc.map (fun o => o.id) ++ newIds rows (acc.map (fun o => o.id)))
      ∧ ∀ o ∈ rows.foldl (groupStep mk) acc,
          (∃ o' ∈ acc, o'.id = o.id ∧
              o.products = o'.products
                ++ (rows.filter (fun r => r.orderId == o.id)).map rowProduct)
          ∨ (o.id ∉ acc.map (fun o => o.id) ∧
              o.products
                = (rows.filter (fun r => r.orderId == o.id)).map rowProduct) := by
  intro rows
  induction rows with
  | nil =>
    intro acc
    refine ⟨by simp [newIds], fun o ho => Or.inl ⟨o, ho, rfl, by simp⟩⟩
  | cons r rs ih =>
    intro acc
    by_cases hmem : r.orderId ∈ acc.map (fun o => o.id)
    · -- the order id of the row is already present: every matching record gets
      -- the product appended
      have hstep : groupStep mk acc r
          = acc.map (fun o =>
              if o.id == r.orderId then
                { o with products := o.products ++ [rowProduct r] }
              else o) := by
        rw [groupStep, if_pos ((any_id_eq_mem acc r.orderId).mpr hmem)]
      have hids : (groupStep mk acc r).map (fun o => o.id)
          = acc.map (fun o => o.id) := by
        rw [groupStep_ids mk hid acc r, if_pos hmem]
      constructor
      · rw [List.foldl_cons, (ih (groupStep mk acc r)).1, hids]
        rw [newIds, if_pos hmem]
      · intro o ho
        rw [List.foldl_cons] at ho
        rcases (ih (groupStep mk acc r)).2 o ho with ⟨o', ho', hoid, hop⟩ | ⟨hnid, hop⟩
        · rw [hstep] at ho'
          rcases List.mem_map.mp ho' with ⟨o₀, ho₀, rfl⟩
          by_cases h0 : (o₀.id == r.orderId) = true
          · rw [if_pos h0] at hoid hop
            refine Or.inl ⟨o₀, ho₀, hoid, ?_⟩
            have hor : r.orderId = o.id := by
              rw [← hoid]; exact (eq_of_beq h0).symm
            rw [List.filter_cons, if_pos (by simp [hor])]
            simp only [List.map_cons]
            rw [hop]
            simp
          · rw [if_neg h0] at hoid hop
            refine Or.inl ⟨o₀, ho₀, hoid, ?_⟩
            have hor : ¬ (r.orderId == o.id) = true := by
              simp only [beq_iff_eq] at h0 ⊢
              rw [← hoid]; exact fun hc => h0 hc.symm
            rw [List.filter_cons, if_neg (by simpa using hor)]
            exact hop
        · rw [hids] at hnid
          refine Or.inr ⟨hnid, ?_⟩
          have hor : ¬ (r.orderId == o.id) = true := by
            simp only [beq_iff_eq]
            intro hc
            exact hnid (hc ▸ hmem)
          rw [List.filter_cons, if_neg (by simpa using hor)]
          exact hop
    · -- fresh order id: a new record is appended
      have hstep : groupStep mk acc r = acc ++ [mk r] := by
        rw [groupStep,
          if_neg (fun hc => hmem ((any_id_eq_mem acc r.orderId).mp hc))]
      have hids : (groupStep mk acc r).map (fun o => o.id)
          = acc.map (fun o => o.id) ++ [r.orderId] := by
        rw [groupStep_ids mk hid acc r, if_neg hmem]
      constructor
      · rw [List.foldl_cons, (ih (groupStep mk acc r)).1, hids]
        rw [newIds, if_neg hmem]
        simp
      · intro o ho
        rw [List.foldl_cons] at ho
        rcases (ih (groupStep mk acc r)).2 o ho with ⟨o', ho', hoid, hop⟩ | ⟨hnid, hop⟩
        · rw [hstep] at ho'
          rcases List.mem_append.mp ho' with ho' | ho'
          · -- the record predates this row, whose id differs
            have hor : ¬ (r.orderId == o.id) = true := by
              simp only [beq_iff_eq]
              intro hc
              apply hmem
              rw [hc, ← hoid]
              exact List.mem_map_of_mem (fun o => o.id) ho'
            refine Or.inl ⟨o', ho', hoid, ?_⟩
            rw [List.filter_cons, if_neg (by simpa using hor)]
            exact hop
          · -- the record is the one this very row created
            have ho' : o' = mk r := by simpa using ho'
            subst ho'
            have hoid' : o.id = r.orderId := by rw [← hoid, hid r]
            refine Or.inr ⟨by rw [hoid']; exact hmem, ?_⟩
            rw [List.filter_cons, if_pos (by simp [hoid'])]
            simp only [List.map_cons]
            rw [hop, hpr r]
            simp
        · rw [hids] at hnid
          have hnid' : o.id ∉ acc.map (fun o => o.id) := by
            intro hc; exact hnid (List.mem_append.mpr (Or.inl hc))
          have hor : ¬ (r.orderId == o.id) = true := by
            simp only [beq_iff_eq]
            intro hc
            refine hnid (List.mem_append.mpr (Or.inr ?_))
            rw [← hc]
            exact List.mem_singleton.mpr rfl
          refine Or.inr ⟨hnid', ?_⟩
          rw [List.filter_cons, if_neg (by simpa using hor)]
          exact hop

theorem newIds_nodup : ∀ (rows : List JoinRow) (seen : List Int),
    seen.Nodup → (seen ++ newIds rows seen).Nodup := by
  intro rows
  induction rows with
  | nil => intro seen h; simpa [newIds] using h
  | cons r rs ih =>
    intro seen h
    rw [newIds]
    by_cases hmem : r.orderId ∈ seen
    · rw [if_pos hmem]
      exact ih seen h
    · rw [if_neg hmem, List.append_cons]
      apply ih
      simp [List.nodup_append, h, hmem]

theorem newIds_mem : ∀ (rows : List JoinRow) (seen : List Int) (x : Int),
    x ∈ newIds rows seen ↔ (x ∉ seen ∧ ∃ r ∈ rows, r.orderId = x) := by
  intro rows
  induction rows with
  | nil => intro seen x; simp [newIds]
  | cons r rs ih =>
    intro seen x
    rw [newIds]
    by_cases hmem : r.orderId ∈ seen
    · rw [if_pos hmem, ih]
      constructor
      · rintro ⟨hx, rr, hrr, hrid⟩
        exact ⟨hx, rr, List.mem_cons_of_mem r hrr, hrid⟩
      · rintro ⟨hx, rr, hrr, hrid⟩
        rcases List.mem_cons.mp hrr with rfl | hrr
        · exact absurd (hrid ▸ hmem) hx
        · exact ⟨hx, rr, hrr, hrid⟩
    · rw [if_neg hmem, List.mem_cons, ih]
      constructor
      · rintro (rfl | ⟨hx, rr, hrr, hrid⟩)
        · exact ⟨hmem, r, List.mem_cons_self r rs, rfl⟩
        · have hxs : x ∉ seen := fun hc => hx (List.mem_append.mpr (Or.inl hc))
          exact ⟨hxs, rr, List.mem_cons_of_mem r hrr, hrid⟩
      · rintro ⟨hx, rr, hrr, hrid⟩
        rcases List.mem_cons.mp hrr with rfl | hrr
        · exact Or.inl hrid.symm
        · by_cases hxr : x = r.orderId
          · exact Or.inl hxr
          · refine Or.inr ⟨?_, rr, hrr, hrid⟩
            intro hc
            rcases List.mem_append.mp hc with hc | hc
            · exact hx hc
            · exact hxr (List.mem_singleton.mp hc)

/-- Every record the customer-scoped fold can produce or extend keeps the
CustomerID zero value. -/
theorem foldl_groupStep_customerId :
    ∀ (rows : List JoinRow) (acc : List OrderWithProducts),
      (∀ o ∈ acc, o.customerId = 0) →
      ∀ o ∈ rows.foldl (groupStep mkCustomerOrder) acc, o.customerId = 0 := by
  intro rows
  induction rows with
  | nil => intro acc h; simpa using h
  | cons r rs ih =>
    intro acc h
    rw [List.foldl_cons]
    apply ih
    intro o ho
    rw [groupStep] at ho
    by_cases hc : acc.any (fun o => o.id == r.orderId) = true
    · rw [if_pos hc] at ho
      rcases List.mem_map.mp ho with ⟨o₀, ho₀, rfl⟩
      by_cases h0 : (o₀.id == r.orderId) = true
      · rw [if_pos h0]
        exact h o₀ ho₀
      · rw [if_neg h0]
        exact h o₀ ho₀
    · rw [if_neg hc] at ho
      rcases List.mem_append.mp ho with ho | ho
      · exact h o ho
      · have he : o = mkCustomerOrder r := by simpa using ho
        rw [he]
        rfl

/-- The grouping fold, run from the empty accumulator as both aggregation
reads do, emits one record per distinct row order id, and each record
carries exactly the product entries of the rows bearing its id. -/
theorem groupRows_exact (mk : JoinRow → OrderWithProducts)
    (hid : ∀ r, (mk r).id = r.orderId)
    (hpr : ∀ r, (mk r).products = [rowProduct r]) (rows : List JoinRow) :
    ((groupRows mk rows).map (fun o => o.id)).Nodup
    ∧ (∀ x, x ∈ (groupRows mk rows).map (fun o => o.id)
          ↔ ∃ r ∈ rows, r.orderId = x)
    ∧ (∀ o ∈ groupRows mk rows,
        o.products = (rows.filter (fun r => r.orderId == o.id)).map rowProduct) := by
  have h := foldl_groupStep_spec mk hid hpr rows []
  rw [groupRows]
  refine ⟨?_, ?_, ?_⟩
  · rw [h.1]
    simpa using newIds_nodup rows [] (by simp)
  · intro x
    rw [h.1]
    simp only [List.map_nil, List.nil_append]
    rw [newIds_mem rows [] x]
    simp
  · intro o ho
    rcases h.2 o ho with ⟨o', ho', _, _⟩ | ⟨_, hop⟩
    · exact absurd ho' (List.not_mem_nil o')
    · exact hop

/-- Every row of the customer-scoped join arises from an association row
with the same order id. -/
theorem customerJoinRows_orderId (s : Store) (cid : Int) (r : JoinRow)
    (hr : r ∈ customerJoinRows s cid) :
    ∃ op ∈ s.orderProducts, op.orderId = r.orderId := by
  rw [customerJoinRows] at hr
  simp only [List.mem_flatMap, List.mem_filter, List.mem_map] at hr
  obtain ⟨o, ⟨ho, hoc⟩, op, ⟨hop, hopid⟩, p, ⟨hp, hpid⟩, rfl⟩ := hr
  exact ⟨op, hop, eq_of_beq hopid⟩

/-- Every row of the admin join arises from an association row with the
same order id. -/
theorem allJoinRows_orderId (s : Store) (r : JoinRow)
    (hr : r ∈ allJoinRows s) :
    ∃ op ∈ s.orderProducts, op.orderId = r.orderId := by
  rw [allJoinRows] at hr
  simp only [List.mem_flatMap, List.mem_filter, List.mem_map] at hr
  obtain ⟨o, ho, op, ⟨hop, hopid⟩, p, ⟨hp, hpid⟩, rfl⟩ := hr
  exact ⟨op, hop, eq_of_beq hopid⟩

/-- Every row of the single-order join arises from an order row matching
both the requested order id and the requested customer id, and from an
association row of that order. -/
theorem mem_detailRows (s : Store) (oid cid : Int) (r : DetailRow)
    (hr : r ∈ detailRows s oid cid) :
    ∃ o ∈ s.orders, o.id = oid ∧ o.customerId = cid ∧
      ∃ op ∈ s.orderProducts, op.orderId = o.id ∧ op.productId = r.productId := by
  rw [detailRows] at hr
  simp only [List.mem_flatMap, List.mem_filter, List.mem_map,
    Bool.and_eq_true] at hr
  obtain ⟨o, ⟨ho, hoid, hoc⟩, op, ⟨hop, hopid⟩, p, ⟨hp, hpid⟩, rfl⟩ := hr
  exact ⟨o, ho, eq_of_beq hoid, eq_of_beq hoc,
    op, hop, eq_of_beq hopid, (eq_of_beq hpid).symm⟩

theorem foldl_detailStep_products :
    ∀ (rows : List DetailRow) (ord : OrderWithProducts),
      (rows.foldl detailStep ord).products
        = ord.products ++ rows.map detailProduct := by
  intro rows
  induction rows with
  | nil => intro ord; simp
  | cons r rs ih =>
    intro ord
    rw [List.foldl_cons, ih]
    simp [detailStep]

/-- The product list getOrderDetails returns is the row-by-row image of the
single-order join. -/
theorem getOrderDetails_products (s : Store) (oid cid : Int) :
    (getOrderDetails s oid cid).products
      = (detailRows s oid cid).map detailProduct := by
  rw [getOrderDetails, foldl_detailStep_products]
  simp

/-- C1: for every sequence of flat join rows consumed by an aggregation
read, both grouping folds (the customer-scoped one and the admin one) emit
exactly one OrderWithProducts per distinct order id appearing in the rows,
and each emitted record carries exactly the product entries of the rows
bearing its order id, in row order — no duplication, no loss. -/
theorem claim1_grouping_fold_exact (rows : List JoinRow) :
    (((groupRows mkCustomerOrder rows).map (fun o => o.id)).Nodup
      ∧ (∀ x, x ∈ (groupRows mkCustomerOrder rows).map (fun o => o.id)
            ↔ ∃ r ∈ rows, r.orderId = x)
      ∧ ∀ o ∈ groupRows mkCustomerOrder rows,
          o.products = (rows.filter (fun r => r.orderId == o.id)).map rowProduct)
    ∧ (((groupRows mkAdminOrder rows).map (fun o => o.id)).Nodup
      ∧ (∀ x, x ∈ (groupRows mkAdminOrder rows).map (fun o => o.id)
            ↔ ∃ r ∈ rows, r.orderId = x)
      ∧ ∀ o ∈ groupRows mkAdminOrder rows,
          o.products = (rows.filter (fun r => r.orderId == o.id)).map rowProduct) :=
  ⟨groupRows_exact mkCustomerOrder (fun _ => rfl) (fun _ => rfl) rows,
   groupRows_exact mkAdminOrder (fun _ => rfl) (fun _ => rfl) rows⟩

/-- C5: an order with zero associated order_products rows contributes no
record to either grouping read and no product entry to getOrderDetails. -/
theorem claim5_productless_order_absent (s : Store) (oid : Int)
    (h : ∀ op ∈ s.orderProducts, op.orderId ≠ oid) :
    (∀ cid, ∀ o ∈ getCustomerOrdersWithProducts s cid, o.id ≠ oid)
    ∧ (∀ o ∈ getAllOrdersWithProducts s, o.id ≠ oid)
    ∧ (∀ cid, (getOrderDetails s oid cid).products = []) := by
  refine ⟨?_, ?_, ?_⟩
  · intro cid o ho hoid
    have hmem : o.id ∈ (groupRows mkCustomerOrder (customerJoinRows s cid)).map
        (fun o => o.id) := List.mem_map_of_mem (fun o => o.id) ho
    obtain ⟨r, hr, hrid⟩ :=
      ((groupRows_exact mkCustomerOrder (fun _ => rfl) (fun _ => rfl)
        (customerJoinRows s cid)).2.1 o.id).mp hmem
    obtain ⟨op, hop, hopid⟩ := customerJoinRows_orderId s cid r hr
    exact h op hop (by rw [hopid, hrid, hoid])
  · intro o ho hoid
    have hmem : o.id ∈ (groupRows mkAdminOrder (allJoinRows s)).map
        (fun o => o.id) := List.mem_map_of_mem (fun o => o.id) ho
    obtain ⟨r, hr, hrid⟩ :=
      ((groupRows_exact mkAdminOrder (fun _ => rfl) (fun _ => rfl)
        (allJoinRows s)).2.1 o.id).mp hmem
    obtain ⟨op, hop, hopid⟩ := allJoinRows_orderId s r hr
    exact h op hop (by rw [hopid, hrid, hoid])
  · intro cid
    rw [getOrderDetails_products]
    have hnil : detailRows s oid cid = [] := by
      rw [List.eq_nil_iff_forall_not_mem]
      intro r hr
      obtain ⟨o, ho, hoid, hoc, op, hop, hopid, hoppid⟩ :=
        mem_detailRows s oid cid r hr
      exact h op hop (hopid.trans hoid)
    rw [hnil]
    rfl

/-- C6: getOrderDetails never returns line items of an order not owned by
the requesting customer; if the order is owned by a different customer the
product list comes back empty. -/
theorem claim6_ownership_isolation (s : Store) (oid cid : Int) :
    ((∀ o ∈ s.orders, o.id = oid → o.customerId ≠ cid) →
      (getOrderDetails s oid cid).products = [])
    ∧ ∀ p ∈ (getOrderDetails s oid cid).products,
        ∃ o ∈ s.orders, o.id = oid ∧ o.customerId = cid ∧
          ∃ op ∈ s.orderProducts, op.orderId = o.id ∧ op.productId = p.id := by
  constructor
  · intro h
    rw [getOrderDetails_products]
    have hnil : detailRows s oid cid = [] := by
      rw [List.eq_nil_iff_forall_not_mem]
      intro r hr
      obtain ⟨o, ho, hoid, hoc, _, _, _, _⟩ := mem_detailRows s oid cid r hr
      exact h o ho hoid hoc
    rw [hnil]
    rfl
  · intro p hp
    rw [getOrderDetails_products] at hp
    obtain ⟨r, hr, rfl⟩ := List.mem_map.mp hp
    obtain ⟨o, ho, hoid, hoc, op, hop, hopid, hoppid⟩ :=
      mem_detailRows s oid cid r hr
    exact ⟨o, ho, hoid, hoc, op, hop, hopid, hoppid⟩

/-- C10: every record the customer-scoped aggregation emits has CustomerID
equal to 0, whatever the requesting customer id is — the query never
populates that field. -/
theorem claim10_customer_orders_zero_customer_id (s : Store) (cid : Int) :
    ∀ o ∈ getCustomerOrdersWithProducts s cid, o.customerId = 0 := by
  intro o ho
  rw [getCustomerOrdersWithProducts, groupRows] at ho
  exact foldl_groupStep_customerId (customerJoinRows s cid) []
    (by intro o ho; exact absurd ho (List.not_mem_nil o)) o ho

/-! ### Concrete witness data -/

/-- A small concrete store: orders 1 and 3 belong to customer 7 and have
line items, order 2 belongs to customer 8 and has no line items. -/
def demoStore : Store :=
  { orders := [{ id := 1, customerId := 7, date := 10, status := "Pending" },
               { id := 2, customerId := 8, date := 11, status := "Done" },
               { id := 3, customerId := 7, date := 12, status := "Pending" }],
    orderProducts := [{ orderId := 1, productId := 100, quantity := 2 },
                      { orderId := 1, productId := 101, quantity := 1 },
                      { orderId := 3, productId := 100, quantity := 5 }],
    products := [{ id := 100, name := "apple", price := 2,
                   description := "fruit", imageURL := "a" },
                 { id := 101, name := "pear", price := 3,
                   description := "fruit", imageURL := "p" }] }

def demoJoinRows : List JoinRow := customerJoinRows demoStore 7

theorem claim1_grouping_fold_exact_witness :
    ((1 : Int) ∈ (groupRows mkCustomerOrder demoJoinRows).map (fun o => o.id))
    ∧ ((groupRows mkAdminOrder demoJoinRows).map (fun o => o.id)).Nodup :=
  ⟨((claim1_grouping_fold_exact demoJoinRows).1.2.1 1).mpr (by decide),
   (claim1_grouping_fold_exact demoJoinRows).2.1⟩

theorem claim5_productless_order_absent_witness :
    (∀ op ∈ demoStore.orderProducts, op.orderId ≠ 2)
    ∧ (∀ o ∈ getAllOrdersWithProducts demoStore, o.id ≠ 2)
    ∧ (getOrderDetails demoStore 2 8).products = [] :=
  ⟨by decide,
   (claim5_productless_order_absent demoStore 2 (by decide)).2.1,
   (claim5_productless_order_absent demoStore 2 (by decide)).2.2 8⟩

theorem claim6_ownership_isolation_witness :
    (∀ o ∈ demoStore.orders, o.id = 1 → o.customerId ≠ 8)
    ∧ (getOrderDetails demoStore 1 8).products = [] :=
  ⟨by decide, (claim6_ownership_isolation demoStore 1 8).1 (by decide)⟩

def demoCustomerOrder : OrderWithProducts :=
  { id := 1, customerId := 0, date := 10, status := "Pending",
    products := [{ id := 100, name := "apple", price := 2,
                   description := "fruit", imageURL := "a", quantity := 0 },
                 { id := 101, name := "pear", price := 3,
                   description := "fruit", imageURL := "p", quantity := 0 }] }

theorem claim10_customer_orders_zero_customer_id_witness :
    demoCustomerOrder ∈ getCustomerOrdersWithProducts demoStore 7
    ∧ demoCustomerOrder.customerId = 0 :=
  ⟨by decide,
   claim10_customer_orders_zero_customer_id demoStore 7 demoCustomerOrder
     (by decide)⟩

/-! ### HTTP layer -/

inductive HttpStatus where
  | ok
  | created
  | badRequest
  | unauthorized
  | tooManyRequests
  | internalServerError
  deriving DecidableEq, Repr

/-- An inbound request: the two headers the modelled handlers read. -/
structure Request where
  authorization : Option String
  xCustomerId : Option String
  deriving DecidableEq, Repr

/-- Go http.Header.Get: the empty string stands for an absent header. -/
def headerGet : Option String → String
  | none => ""
  | some v => v

structure Response where
  status : HttpStatus
  body : String
  deriving DecidableEq, Repr

def customerToken : String := "customer_token"

def adminToken : String := "admin_token"

def unauthorizedResponse : Response :=
  { status := HttpStatus.unauthorized, body := "Unauthorized" }

def internalErrorResponse : Response :=
  { status := HttpStatus.internalServerError, body := "Internal Server Error" }

/-- AuthMiddleware of main.go: compare the Authorization header by exact
string equality with the secret of the required role; 401 on mismatch, 500
on an unknown role, otherwise run the wrapped handler on the unchanged
request. -/
def AuthMiddleware (next : Request → Response) (role : String)
    (req : Request) : Response :=
  if role = "customer" then
    if headerGet req.authorization ≠ customerToken then unauthorizedResponse
    else next req
  else if role = "admin" then
    if headerGet req.authorization ≠ adminToken then unauthorizedResponse
    else next req
  else internalErrorResponse

theorem authMiddleware_customer_mismatch (next : Request → Response)
    (req : Request) (h : headerGet req.authorization ≠ customerToken) :
    AuthMiddleware next "customer" req = unauthorizedResponse := by
  rw [AuthMiddleware, if_pos rfl, if_pos h]

theorem authMiddleware_admin_mismatch (next : Request → Response)
    (req : Request) (h : headerGet req.authorization ≠ adminToken) :
    AuthMiddleware next "admin" req = unauthorizedResponse := by
  rw [AuthMiddleware, if_neg (by decide), if_pos rfl, if_pos h]

/-- C4: the access-control wrapper rejects any token that does not exactly
match the secret of the route role — including the absent header and the
secret of the other role — before invoking the wrapped handler; an unknown role
yields a server fault, not a client error; an exact match invokes the
wrapped handler on the unchanged request. -/
theorem claim4_auth_middleware (next : Request → Response) (req : Request) :
    (headerGet req.authorization ≠ customerToken →
      AuthMiddleware next "customer" req = unauthorizedResponse)
    ∧ (headerGet req.authorization ≠ adminToken →
      AuthMiddleware next "admin" req = unauthorizedResponse)
    ∧ (req.authorization = none →
      AuthMiddleware next "customer" req = unauthorizedResponse
      ∧ AuthMiddleware next "admin" req = unauthorizedResponse)
    ∧ AuthMiddleware next "customer"
        { req with authorization := some adminToken } = unauthorizedResponse
    ∧ AuthMiddleware next "admin"
        { req with authorization := some customerToken } = unauthorizedResponse
    ∧ (∀ role, role ≠ "customer" → role ≠ "admin" →
      AuthMiddleware next role req = internalErrorResponse)
    ∧ internalErrorResponse.status = HttpStatus.internalServerError
    ∧ unauthorizedResponse.status = HttpStatus.unauthorized
    ∧ internalErrorResponse.status ≠ unauthorizedResponse.status
    ∧ (headerGet req.authorization = customerToken →
      AuthMiddleware next "customer" req = next req)
    ∧ (headerGet req.authorization = adminToken →
      AuthMiddleware next "admin" req = next req) := by
  refine ⟨?_, ?_, ?_, ?_, ?_, ?_, rfl, rfl, by decide, ?_, ?_⟩
  · exact authMiddleware_customer_mismatch next req
  · exact authMiddleware_admin_mismatch next req
  · intro h
    exact ⟨authMiddleware_customer_mismatch next req (by rw [h]; decide),
      authMiddleware_admin_mismatch next req (by rw [h]; decide)⟩
  · exact authMiddleware_customer_mismatch next _
      (show headerGet (some adminToken) ≠ customerToken by decide)
  · exact authMiddleware_admin_mismatch next _
      (show headerGet (some customerToken) ≠ adminToken by decide)
  · intro role h1 h2
    rw [AuthMiddleware, if_neg h1, if_neg h2]
  · intro h
    rw [AuthMiddleware, if_pos rfl, if_neg (by rw [h]; exact fun hc => hc rfl)]
  · intro h
    rw [AuthMiddleware, if_neg (by decide), if_pos rfl,
      if_neg (by rw [h]; exact fun hc => hc rfl)]

def demoNext : Request → Response := fun _ => { status := HttpStatus.ok, body := "" }

def demoAdminTokenReq : Request :=
  { authorization := some adminToken, xCustomerId := none }

theorem claim4_auth_middleware_witness :
    headerGet demoAdminTokenReq.authorization ≠ customerToken
    ∧ AuthMiddleware demoNext "customer" demoAdminTokenReq
        = unauthorizedResponse
    ∧ AuthMiddleware demoNext "admin" demoAdminTokenReq
        = demoNext demoAdminTokenReq :=
  ⟨by decide,
   (claim4_auth_middleware demoNext demoAdminTokenReq).1 (by decide),
   (claim4_auth_middleware demoNext demoAdminTokenReq).2.2.2.2.2.2.2.2.2.2
     (by decide)⟩

/-! ### Order ingestion -/

structure OrderItem where
  productId : Int
  quantity : Int
  deriving DecidableEq, Repr

structure OrderRequest where
  customerId : Int
  products : List OrderItem
  deriving DecidableEq, Repr

/-- Modelled from the spec: validateOrderRequest is called by
PlaceOrderHandler but its body is not among the sources; the spec requires
rejection exactly when the customer id is missing/non-positive, the product
list is empty, or any quantity is non-positive. -/
def validateOrderRequest (req : OrderRequest) : Bool :=
  !(decide (req.customerId ≤ 0) || req.products.isEmpty
      || req.products.any (fun it => decide (it.quantity ≤ 0)))

/-- Modelled from the spec: createOrder (body not among the sources)
inserts the order header with the given customer id, the current
timestamp and initial status Pending, returning the store-assigned id,
modelled as one past the largest id in use. -/
def createOrder (s : Store) (req : OrderRequest) (now : Int) : Store × Int :=
  let oid := (s.orders.foldl (fun m o => max m o.id) 0) + 1
  ({ s with orders := s.orders ++
      [{ id := oid, customerId := req.customerId, date := now,
         status := "Pending" }] }, oid)

/-- Modelled from the spec: associateProducts (body not among the sources)
inserts one association row per requested product with its quantity,
referencing the new order id. -/
def associateProducts (s : Store) (oid : Int) (items : List OrderItem) :
    Store :=
  { s with orderProducts := s.orderProducts ++ items.map (fun it =>
      { orderId := oid, productId := it.productId,
        quantity := it.quantity }) }

/-- PlaceOrderHandler of main.go from the point where the body has been
decoded: a validation failure short-circuits with a 400 client error before
any write; otherwise the header and association rows are written and 201 is
returned.  (CSV report failure is only logged; it changes neither the state
nor the status.) -/
def PlaceOrderHandler (s : Store) (req : OrderRequest) (now : Int) :
    HttpStatus × Store :=
  if validateOrderRequest req then
    let so := createOrder s req now
    (HttpStatus.created, associateProducts so.1 so.2 req.products)
  else (HttpStatus.badRequest, s)

/-- C3: an order request with a non-positive customer id, an empty product
list, or a non-positive quantity is rejected with a client error (distinct
from the internal-error status) and the store is left untouched: no order
header row and no association row is written. -/
theorem claim3_invalid_order_rejected (s : Store) (req : OrderRequest)
    (now : Int)
    (h : req.customerId ≤ 0 ∨ req.products = []
        ∨ ∃ it ∈ req.products, it.quantity ≤ 0) :
    PlaceOrderHandler s req now = (HttpStatus.badRequest, s)
    ∧ (PlaceOrderHandler s req now).2.orders = s.orders
    ∧ (PlaceOrderHandler s req now).2.orderProducts = s.orderProducts
    ∧ HttpStatus.badRequest ≠ HttpStatus.internalServerError := by
  have hvx : (decide (req.customerId ≤ 0) || req.products.isEmpty
      || req.products.any (fun it => decide (it.quantity ≤ 0))) = true := by
    rcases h with h | h | ⟨it, hit, hq⟩
    · simp [h]
    · simp [h]
    · simp only [Bool.or_eq_true, List.any_eq_true, decide_eq_true_eq]
      exact Or.inr ⟨it, hit, hq⟩
  have hv : validateOrderRequest req = false := by
    rw [validateOrderRequest, hvx]
    rfl
  have hmain : PlaceOrderHandler s req now = (HttpStatus.badRequest, s) := by
    rw [PlaceOrderHandler, hv]
    rfl
  exact ⟨hmain, by rw [hmain], by rw [hmain], by decide⟩

def demoEmptyOrderRequest : OrderRequest := { customerId := 7, products := [] }

theorem claim3_invalid_order_rejected_witness :
    demoEmptyOrderRequest.products = []
    ∧ PlaceOrderHandler demoStore demoEmptyOrderRequest 5
        = (HttpStatus.badRequest, demoStore) :=
  ⟨rfl, (claim3_invalid_order_rejected demoStore demoEmptyOrderRequest 5
    (Or.inr (Or.inl rfl))).1⟩

/-! ### Customer id extraction -/

def atoiDigits (cs : List Char) : Nat :=
  cs.foldl (fun acc c => acc * 10 + (c.toNat - 48)) 0

/-- Go strconv.Atoi on a base-10 literal: an optional sign followed by at
least one digit; any other shape is an error, returned here as none.  (The
machine-int overflow error of Go is not modelled; claim C9 concerns only
inputs that are not decimal integers.) -/
def goAtoi (s : String) : Option Int :=
  match s.toList with
  | [] => none
  | '+' :: ds =>
    if ds ≠ [] ∧ ds.all (fun c => c.isDigit) then some (atoiDigits ds)
    else none
  | '-' :: ds =>
    if ds ≠ [] ∧ ds.all (fun c => c.isDigit) then some (-(atoiDigits ds : Int))
    else none
  | ds =>
    if ds.all (fun c => c.isDigit) then some (atoiDigits ds) else none

/-- getCustomerID of main.go: parse the X-Customer-ID header and fall back
to 0 on any parse error (an absent header reads as the empty string). -/
def getCustomerID (req : Request) : Int :=
  match goAtoi (headerGet req.xCustomerId) with
  | none => 0
  | some n => n

/-- CustomerOrdersHandler of main.go over the pure store model, where the
query and the JSON encoding cannot fail: respond 200 with the aggregation
result for the parsed customer id. -/
def CustomerOrdersHandler (s : Store) (req : Request) :
    HttpStatus × List OrderWithProducts :=
  (HttpStatus.ok, getCustomerOrdersWithProducts s (getCustomerID req))

/-- C9: a GET /customer/orders request whose X-Customer-ID header is
missing or not a decimal integer is treated as coming from customer id 0
and answered with a success response carrying the aggregation result for
customer 0, not with a client error. -/
theorem claim9_bad_customer_header_defaults_to_zero (s : Store)
    (req : Request)
    (h : req.xCustomerId = none
        ∨ ∃ v, req.xCustomerId = some v ∧ goAtoi v = none) :
    getCustomerID req = 0
    ∧ CustomerOrdersHandler s req
        = (HttpStatus.ok, getCustomerOrdersWithProducts s 0) := by
  have h0 : getCustomerID req = 0 := by
    rcases h with h | ⟨v, hv, hparse⟩
    · rw [getCustomerID, h]
      rfl
    · rw [getCustomerID, hv]
      have hh : headerGet (some v) = v := rfl
      rw [hh, hparse]
  exact ⟨h0, by rw [CustomerOrdersHandler, h0]⟩

def demoBadHeaderReq : Request :=
  { authorization := some customerToken, xCustomerId := some "abc" }

theorem claim9_bad_customer_header_defaults_to_zero_witness :
    (∃ v, demoBadHeaderReq.xCustomerId = some v ∧ goAtoi v = none)
    ∧ CustomerOrdersHandler demoStore demoBadHeaderReq
        = (HttpStatus.ok, getCustomerOrdersWithProducts demoStore 0) :=
  ⟨⟨"abc", rfl, by decide⟩,
   (claim9_bad_customer_header_defaults_to_zero demoStore demoBadHeaderReq
     (Or.inr ⟨"abc", rfl, by decide⟩)).2⟩

/-! ### Rate limiter -/

/-- The golang.org/x/time/rate token bucket that NewRateLimiter of main.go
delegates to: one bucket holding up to burst tokens, refilled continuously
at rateLim tokens per second; Allow consumes one token when at least one is
available.  The limiter holds no per-key state and its Allow method takes
no key, so the key strings passed at the call sites of main.go cannot
influence it.  Time is observed in whole seconds; since the constructed
refill rates are integral per second, all token counts stay integral and
the bucket is modelled over the integers. -/
structure Limiter where
  rateLim : Int
  burst : Int
  tokens : Int
  last : Int
  deriving DecidableEq, Repr

/-- rate.NewLimiter: a fresh limiter starts with a full bucket. -/
def rateNewLimiter (r : Int) (b : Int) : Limiter :=
  { rateLim := r, burst := b, tokens := b, last := 0 }

/-- Refill on the elapsed time, capped at the burst size. -/
def limiterAdvance (l : Limiter) (t : Int) : Int :=
  let tok := l.tokens + (t - l.last) * l.rateLim
  if l.burst ≤ tok then l.burst else tok

/-- Allow at time t (in seconds): consume one token when available. -/
def limiterAllow (l : Limiter) (t : Int) : Bool × Limiter :=
  let tok := limiterAdvance l t
  if 1 ≤ tok then (true, { l with tokens := tok - 1, last := t })
  else (false, { l with tokens := tok, last := t })

/-- NewRateLimiter of main.go: rate.NewLimiter(rate.Limit(limit),
int(window.Seconds())) — the refill rate is limit tokens per SECOND and
the burst is the window length in seconds. -/
def NewRateLimiter (limit : Int) (windowSeconds : Int) : Limiter :=
  rateNewLimiter limit windowSeconds

/-- taskLimiter of main.go: NewRateLimiter(1, 24*time.Hour). -/
def taskLimiter : Limiter := NewRateLimiter 1 86400

/-- rateLimiter of main.go: NewRateLimiter(100, time.Minute). -/
def rateLimiter : Limiter := NewRateLimiter 100 60

/-- n successive Allow calls at one instant, returning the n results. -/
def repeatAllow : Limiter → Nat → List Bool
  | _, 0 => []
  | l, n + 1 =>
    let bl := limiterAllow l 0
    bl.1 :: repeatAllow bl.2 n

/-- C2 (divergence evaluation): the reminder limiter built as
NewRateLimiter(1, 24h) answers true to its first 86400 immediate calls —
in particular the second immediate call, which the claim requires to be
false for N = 1 — because the construction sets the burst to the window in
seconds and the refill rate to limit-per-second; and the limiter state
carries no key, so distinct keys share the one bucket. -/
theorem claim2_rate_limiter_divergence :
    (limiterAllow taskLimiter 0).1 = true
    ∧ (limiterAllow (limiterAllow taskLimiter 0).2 0).1 = true
    ∧ taskLimiter.burst = 86400
    ∧ taskLimiter.rateLim = 1
    ∧ rateLimiter.burst = 60
    ∧ rateLimiter.rateLim = 100
    ∧ repeatAllow rateLimiter 61
        = List.replicate 60 true ++ [false] := by
  refine ⟨by decide, by decide, rfl, rfl, rfl, rfl, by decide⟩

/-! ### Schema and query column lists -/

/-- The columns initDB creates for the order_products table. -/
def orderProductsColumns : List String := ["order_id", "product_id"]

/-- The columns initDB creates for the orders table. -/
def ordersColumns : List String := ["id", "customer_id", "date", "status"]

/-- The columns the getOrderDetails query selects. -/
def getOrderDetailsSelectColumns : List String :=
  ["o.id", "o.customer_id", "o.date", "o.status",
   "p.id", "p.name", "p.price", "op.quantity"]

/-- The fields of the Go Product struct in main.go. -/
def productStructFields : List String :=
  ["ID", "Name", "Price", "Description", "ImageURL"]

/-- The product-side targets the getOrderDetails scan writes to. -/
def getOrderDetailsScanProductFields : List String :=
  ["ID", "Name", "Price", "Quantity"]

/-- The columns the pending-order reminder query of
SendPendingOrderReminders selects from the orders table. -/
def pendingRemindersSelectColumns : List String := ["id", "customer_email"]

/-- C7 (divergence evaluation): getOrderDetails selects op.quantity and
scans it into a Quantity field, but initDB creates order_products without
any quantity column and the Go Product struct declares no Quantity field:
the association rows the schema stores carry no quantity at all. -/
theorem claim7_quantity_column_missing :
    "op.quantity" ∈ getOrderDetailsSelectColumns
    ∧ "quantity" ∉ orderProductsColumns
    ∧ "Quantity" ∈ getOrderDetailsScanProductFields
    ∧ "Quantity" ∉ productStructFields := by
  decide

/-- C8 (divergence evaluation): the pending-order sweep selects
customer_email from the orders table, but initDB creates orders without
any customer_email column (the email lives on the customers table), so
against its own schema every sweep aborts at the query. -/
theorem claim8_customer_email_column_missing :
    "customer_email" ∈ pendingRemindersSelectColumns
    ∧ "customer_email" ∉ ordersColumns := by
  decide

end SimpleCommerce
